import Mathlib

/-!
Verification development for the playwright-autotests repository.

We give a shallow embedding of the pieces of the test-support code that
carry a reusable contract:

* `Interception.interceptionsRun` embeds the method `interceptions` of
  `tests/support/interception/interception.ts` (the current variant, with
  the `waitForResponses` flag defaulting to `false`).
* `Login.signInRun` embeds `Login.signIn` (the variant taking a
  caller-specified `statusCode`).
* `playwrightConfig` and `projectsConfig` embed the two
  timeout settings of both `playwright.config.ts` variants.
* `globalTeardownRun` embeds the control flow of
  `tests/support/globalTeardown/globalTeardown.ts`.

The browser is modelled by a per-call `World`: the list of network
responses the page observes during the call (in arrival order, all of
them arriving after the awaits are armed) and whether a locator click
succeeds.  `page.waitForResponse pred` resolves to the first arrival
satisfying `pred`, or fails by timeout when none matches.  Besides its
result, each embedded operation also returns the ordered list of
observable effects it performs (arming an await, clicking), so that
ordering claims can be stated positionally.
-/

/-- A network response as observed by the page: URL, request method and
status code (the JSON body plays no role in any contract here). -/
structure Response where
  url : String
  requestMethod : String
  status : Nat
deriving DecidableEq, Repr

/-- The `Intercept` record type of `interception.ts`:
`{url: string; method: string; statusCode: number}`. -/
structure Intercept where
  url : String
  method : String
  statusCode : Nat
deriving DecidableEq, Repr

/-- The behaviour of the browser during one call: the network responses
the page observes (in arrival order) and whether a locator click
succeeds. -/
structure World where
  arrivals : List Response
  clickOk : Bool
deriving DecidableEq, Repr

/-- Errors an embedded operation can fail with, following the error
taxonomy of the spec. -/
inductive IErr where
  | elementNotFound
  | interceptionTimeout
deriving DecidableEq, Repr

/-- `listPrefixOf needle l` is true when `needle` is an initial segment
of `l`; building block of the JavaScript `String.prototype.includes`. -/
def listPrefixOf : List Char → List Char → Bool
  | [], _ => true
  | _ :: _, [] => false
  | a :: as, b :: bs => a == b && listPrefixOf as bs

/-- `listContains needle hay` is true when `needle` occurs contiguously
inside `hay`. -/
def listContains (needle : List Char) : List Char → Bool
  | [] => listPrefixOf needle []
  | b :: bs => listPrefixOf needle (b :: bs) || listContains needle bs

/-- The JavaScript `haystack.includes(needle)`: substring containment. -/
def strIncludes (haystack needle : String) : Bool :=
  listContains needle.data haystack.data

/-- The response-matching predicate used (inline) by
`Interception.interceptions` and `Login.signIn`:
`resp.url().includes(url) && resp.request().method() === method &&
resp.status() === statusCode`.  Pure: a plain function of its two
arguments. -/
def respMatches (resp : Response) (spec : Intercept) : Bool :=
  strIncludes resp.url spec.url &&
    resp.requestMethod == spec.method &&
    resp.status == spec.statusCode

/-- `page.waitForResponse pred`: resolves to the first response arriving
after registration that satisfies `pred`; `none` means the wait times
out. -/
def waitForResponse (w : World) (pred : Response → Bool) : Option Response :=
  w.arrivals.find? pred

/-- JavaScript truthiness of the optional `clickAction : string`
argument: `undefined` and the empty string are falsy. -/
def truthy : Option String → Bool
  | none => false
  | some s => !(s == "")

/-- `Promise.all` over the registered response awaits: resolves to the
list of responses when every await resolves, rejects with
`InterceptionTimeout` when any one of them fails. -/
def promiseAll : List (Option Response) → Except IErr (List Response)
  | [] => Except.ok []
  | none :: _ => Except.error IErr.interceptionTimeout
  | some r :: rest =>
    match promiseAll rest with
    | Except.ok rs => Except.ok (r :: rs)
    | Except.error e => Except.error e

/-- The Interception Coordinator: its only state is the page handle set
at construction (`private page: Page`), modelled as an opaque handle
identifier. -/
structure Interception where
  page : Nat
deriving DecidableEq, Repr

/-- Result of `interceptions`: the array of responses (when
`waitForResponses` is true) or the coordinator itself (`this`). -/
inductive IResult where
  | responses (rs : List Response)
  | selfRef (c : Interception)
deriving DecidableEq, Repr

/-- Observable effects performed by `interceptions`, in program order:
arming one response await per spec, and clicking the trigger locator. -/
inductive Event where
  | register (spec : Intercept)
  | clickEv (selector : String)
deriving DecidableEq, Repr

/-- Shared tail of `interceptions` after the optional click: await
`Promise.all(responsePromises)` and either return the responses (flag
true) or return `this` (flag false). -/
def finishInterceptions (ps : List (Option Response)) (waitForResponses : Bool)
    (self : Interception) : Except IErr IResult :=
  match promiseAll ps with
  | Except.ok rs =>
    if waitForResponses then Except.ok (IResult.responses rs)
    else Except.ok (IResult.selfRef self)
  | Except.error e => Except.error e

/-- Embedding of `Interception.interceptions(intercepts, clickAction?,
waitForResponses = false)`.  Following the source line by line: first
`intercepts.map` arms one `waitForResponse` await per spec (each
recorded as a `register` event), then `if (clickAction)` the trigger
locator is clicked (recorded as a `clickEv` event; a failing click
throws `ElementNotFound` and the awaits are abandoned), then
`Promise.all` is awaited and either the responses or `this` is
returned.  The returned first component is the object state the method
leaves behind: the body never assigns to `this.page`. -/
def Interception.interceptionsRun (self : Interception) (w : World)
    (intercepts : List Intercept) (clickAction : Option String)
    (waitForResponses : Bool := false) :
    Interception × List Event × Except IErr IResult :=
  let responsePromises : List (Option Response) :=
    intercepts.map (fun i => waitForResponse w (fun resp => respMatches resp i))
  let regEvents : List Event := intercepts.map Event.register
  match clickAction with
  | some sel =>
    if sel == "" then
      (self, regEvents, finishInterceptions responsePromises waitForResponses self)
    else if w.clickOk then
      (self, regEvents ++ [Event.clickEv sel],
        finishInterceptions responsePromises waitForResponses self)
    else
      (self, regEvents ++ [Event.clickEv sel], Except.error IErr.elementNotFound)
  | none =>
    (self, regEvents, finishInterceptions responsePromises waitForResponses self)

/-- The Login page helper: holds the page handle (`readonly page`). -/
structure Login where
  page : Nat
deriving DecidableEq, Repr

/-- Selector of the username input on the sign-in form. -/
def fieldSignInUsername : String := "#«r2»"

/-- Selector of the password input on the sign-in form. -/
def fieldSignInPassword : String := "#«r3»"

/-- Selector of the login button. -/
def loginButton : String := "button:text(\"LOGIN\")"

/-- Observable effects of `Login.signIn`, in program order: filling a
field, arming the response await, clicking. -/
inductive LEvent where
  | fill (selector value : String)
  | armAwait (urlPart method : String) (statusCode : Nat)
  | click (selector : String)
deriving DecidableEq, Repr

/-- Embedding of `Login.signIn(username, password, statusCode)` (the
variant taking the expected status code).  It fills the username and
password fields, then evaluates
`Promise.all([this.page.waitForResponse(...), click()])`: the array
literal arms the await first and clicks second, and both are awaited
together.  On success it returns `this`. -/
def Login.signInRun (self : Login) (w : World) (username password : String)
    (statusCode : Nat) : List LEvent × Except IErr Login :=
  let evs : List LEvent :=
    [LEvent.fill fieldSignInUsername username,
     LEvent.fill fieldSignInPassword password,
     LEvent.armAwait "/api/login" "POST" statusCode,
     LEvent.click loginButton]
  let resp : Option Response :=
    waitForResponse w (fun r =>
      strIncludes r.url "/api/login" &&
        r.requestMethod == "POST" &&
        r.status == statusCode)
  if w.clickOk then
    match resp with
    | some _ => (evs, Except.ok self)
    | none => (evs, Except.error IErr.interceptionTimeout)
  else
    (evs, Except.error IErr.elementNotFound)

/-- The centrally configured Playwright settings that the claims are
about. -/
structure PlaywrightConfig where
  timeout : Nat
  expectTimeout : Nat
  headless : Bool
  screenshot : String
deriving DecidableEq, Repr

/-- The `defineConfig` call of `playwright.config.ts`:
`timeout: 10 * 2000, expect: \x7btimeout: 5000\x7d`. -/
def playwrightConfig : PlaywrightConfig :=
  { timeout := 10 * 2000
    expectTimeout := 5000
    headless := true
    screenshot := "only-on-failure" }

/-- The projects-variant `defineConfig` call (the unnamed config file):
same `timeout: 10 * 2000` and `expect: \x7btimeout: 5000\x7d`. -/
def projectsConfig : PlaywrightConfig :=
  { timeout := 10 * 2000
    expectTimeout := 5000
    headless := true
    screenshot := "only-on-failure" }

/-- Outcome environment for `globalTeardown`: whether each awaited
external call in its body resolves (`true`) or rejects (`false`).  The
try-body steps come in source order; `errTraceStopOk` is the
`tracing.stop` performed inside the `catch` handler and `closeOk` the
`browser.close()` performed in the `finally` block. -/
structure TDEnv where
  launchOk : Bool
  newPageOk : Bool
  traceStartOk : Bool
  gotoOk : Bool
  signInOk : Bool
  navOk : Bool
  nextMonthOk : Bool
  waitTasksOk : Bool
  deleteLoopOk : Bool
  traceStopOk : Bool
  errTraceStopOk : Bool
  closeOk : Bool
deriving DecidableEq, Repr

/-- The error each step of `globalTeardown` can reject with. -/
inductive TDErr where
  | launchE
  | newPageE
  | traceStartE
  | gotoE
  | signInE
  | navE
  | nextMonthE
  | waitTasksE
  | deleteE
  | traceStopE
  | errTraceStopE
  | closeE
deriving DecidableEq, Repr

/-- Observable effects of `globalTeardown` needed by the claims:
logging the caught error (`console.error` in the catch handler) and
invoking `browser.close()`. -/
inductive TDEvent where
  | logError
  | closeBrowser
deriving DecidableEq, Repr

/-- The try body of `globalTeardown`, in source order: launch browser,
new page, `tracing.start`, `goto`, `login.signIn`,
`navigation.gotoTabRequests`, next-month click, `waitForSelector` on
the task list, the delete loop, `tracing.stop`.  The first rejecting
step throws; `none` means the body ran to completion. -/
def tryBody (e : TDEnv) : Option TDErr :=
  if !e.launchOk then some TDErr.launchE
  else if !e.newPageOk then some TDErr.newPageE
  else if !e.traceStartOk then some TDErr.traceStartE
  else if !e.gotoOk then some TDErr.gotoE
  else if !e.signInOk then some TDErr.signInE
  else if !e.navOk then some TDErr.navE
  else if !e.nextMonthOk then some TDErr.nextMonthE
  else if !e.waitTasksOk then some TDErr.waitTasksE
  else if !e.deleteLoopOk then some TDErr.deleteE
  else if !e.traceStopOk then some TDErr.traceStopE
  else none

/-- Embedding of the `try/catch/finally` control flow of `globalTeardown`.
`browser` is assigned only when the launch succeeds; `page` only when
`newPage` also succeeds.  When the try body throws, the catch handler
logs the error and, if `page` is defined, calls `tracing.stop` again;
an exception thrown by that call escapes the handler.  The finally
block invokes `browser.close()` whenever `browser` is defined; per
JavaScript semantics an exception thrown in `finally` replaces any
pending result.  The second component is `none` when `globalTeardown`
returns normally and `some err` when it propagates `err` to its
caller. -/
def globalTeardownRun (e : TDEnv) : List TDEvent × Option TDErr :=
  let bodyErr := tryBody e
  let browserLaunched := e.launchOk
  let pageDefined := e.launchOk && e.newPageOk
  let afterCatch : List TDEvent × Option TDErr :=
    match bodyErr with
    | none => ([], none)
    | some _ =>
      if pageDefined then
        if e.errTraceStopOk then ([TDEvent.logError], none)
        else ([TDEvent.logError], some TDErr.errTraceStopE)
      else ([TDEvent.logError], none)
  if browserLaunched then
    if e.closeOk then (afterCatch.1 ++ [TDEvent.closeBrowser], afterCatch.2)
    else (afterCatch.1 ++ [TDEvent.closeBrowser], some TDErr.closeE)
  else (afterCatch.1, afterCatch.2)

/-! ### Helper lemmas -/

theorem listPrefixOf_iff (n h : List Char) :
    listPrefixOf n h = true ↔ ∃ r, h = n ++ r := by
  induction n generalizing h with
  | nil => simp [listPrefixOf]
  | cons a as ih =>
    cases h with
    | nil => simp [listPrefixOf]
    | cons b bs =>
      simp only [listPrefixOf, Bool.and_eq_true, beq_iff_eq, ih, List.cons_append,
        List.cons.injEq]
      constructor
      · rintro ⟨hab, r, hr⟩
        exact ⟨r, hab.symm, hr⟩
      · rintro ⟨r, hba, hr⟩
        exact ⟨hba.symm, r, hr⟩

theorem listContains_iff (n h : List Char) :
    listContains n h = true ↔ ∃ p r, h = p ++ n ++ r := by
  induction h with
  | nil =>
    simp only [listContains, listPrefixOf_iff]
    constructor
    · rintro ⟨r, hr⟩
      exact ⟨[], r, by simpa using hr⟩
    · rintro ⟨p, r, hpr⟩
      have hp : p = [] := by
        cases p with
        | nil => rfl
        | cons x xs => simp at hpr
      subst hp
      exact ⟨r, by simpa using hpr⟩
  | cons b bs ih =>
    simp only [listContains, Bool.or_eq_true, listPrefixOf_iff, ih]
    constructor
    · rintro (⟨r, hr⟩ | ⟨p, r, hpr⟩)
      · exact ⟨[], r, by simpa using hr⟩
      · exact ⟨b :: p, r, by simp [hpr]⟩
    · rintro ⟨p, r, hpr⟩
      cases p with
      | nil => exact Or.inl ⟨r, by simpa using hpr⟩
      | cons x xs =>
        simp only [List.cons_append, List.cons.injEq] at hpr
        exact Or.inr ⟨xs, r, hpr.2⟩

theorem strIncludes_iff (hay nd : String) :
    strIncludes hay nd = true ↔ ∃ p r, hay.data = p ++ nd.data ++ r := by
  simpa [strIncludes] using listContains_iff nd.data hay.data

theorem promiseAll_ok_iff (ps : List (Option Response)) :
    (∃ rs, promiseAll ps = Except.ok rs) ↔ ∀ p ∈ ps, p.isSome = true := by
  induction ps with
  | nil => simp [promiseAll]
  | cons hd tl ih =>
    cases hd with
    | none => simp [promiseAll]
    | some r =>
      cases htl : promiseAll tl with
      | ok rs =>
        have hall : ∀ p ∈ tl, p.isSome = true := ih.mp ⟨rs, htl⟩
        simp only [promiseAll, htl, List.mem_cons]
        constructor
        · intro _ p hp
          rcases hp with hp | hp
          · subst hp; rfl
          · exact hall p hp
        · intro _
          exact ⟨r :: rs, rfl⟩
      | error e =>
        have hnone : ¬ ∀ p ∈ tl, p.isSome = true := by
          intro hall
          obtain ⟨rs, hrs⟩ := ih.mpr hall
          rw [htl] at hrs
          cases hrs
        simp [promiseAll, htl, hnone]

theorem promiseAll_error_eq (ps : List (Option Response)) (e : IErr)
    (h : promiseAll ps = Except.error e) : e = IErr.interceptionTimeout := by
  induction ps with
  | nil => cases h
  | cons hd tl ih =>
    cases hd with
    | none =>
      simp only [promiseAll] at h
      cases h
      rfl
    | some r =>
      simp only [promiseAll] at h
      cases htl : promiseAll tl with
      | ok rs => rw [htl] at h; cases h
      | error e2 =>
        rw [htl] at h
        cases h
        exact ih htl

theorem promiseAll_ok_get (ps : List (Option Response)) (rs : List Response)
    (h : promiseAll ps = Except.ok rs) :
    rs.length = ps.length ∧
      ∀ (i : Nat) (hi : i < ps.length) (hj : i < rs.length), ps[i] = some rs[i] := by
  induction ps generalizing rs with
  | nil =>
    simp only [promiseAll] at h
    cases h
    simp
  | cons hd tl ih =>
    cases hd with
    | none => simp [promiseAll] at h
    | some r =>
      simp only [promiseAll] at h
      cases htl : promiseAll tl with
      | error e2 => rw [htl] at h; cases h
      | ok rs2 =>
        rw [htl] at h
        cases h
        obtain ⟨hlen, hget⟩ := ih rs2 htl
        refine ⟨by simp [hlen], ?_⟩
        intro i hi hj
        cases i with
        | zero => rfl
        | succ k =>
          simp only [List.getElem_cons_succ]
          exact hget k (by simpa using hi) (by simpa using hj)

theorem finishInterceptions_ok_iff (ps : List (Option Response)) (b : Bool)
    (self : Interception) :
    (∃ r, finishInterceptions ps b self = Except.ok r) ↔ ∀ p ∈ ps, p.isSome = true := by
  rw [← promiseAll_ok_iff]
  unfold finishInterceptions
  cases hps : promiseAll ps with
  | ok rs =>
    cases b with
    | false => simp
    | true => simp
  | error e => simp

theorem finishInterceptions_error_eq (ps : List (Option Response)) (b : Bool)
    (self : Interception) (e : IErr)
    (h : finishInterceptions ps b self = Except.error e) : e = IErr.interceptionTimeout := by
  unfold finishInterceptions at h
  cases hps : promiseAll ps with
  | ok rs =>
    rw [hps] at h
    cases b with
    | false => cases h
    | true => cases h
  | error e2 =>
    rw [hps] at h
    cases h
    exact promiseAll_error_eq ps e hps

theorem interceptionsRun_trace_click (c : Interception) (w : World)
    (specs : List Intercept) (sel : String) (b : Bool) (hsel : (sel == "") = false) :
    (c.interceptionsRun w specs (some sel) b).2.1 =
      specs.map Event.register ++ [Event.clickEv sel] := by
  unfold Interception.interceptionsRun
  cases hok : w.clickOk with
  | true => simp [hsel, hok]
  | false => simp [hsel, hok]

theorem interceptionsRun_state (c : Interception) (w : World)
    (specs : List Intercept) (ca : Option String) (b : Bool) :
    (c.interceptionsRun w specs ca b).1 = c := by
  unfold Interception.interceptionsRun
  cases ca with
  | none => rfl
  | some sel =>
    by_cases hsel : (sel == "") = true
    · simp [hsel]
    · cases hok : w.clickOk with
      | true => simp [hsel, hok]
      | false => simp [hsel, hok]

/-! ### Concrete fixtures used by the witnesses -/

/-- A fabricated successful login response. -/
def loginResp : Response :=
  { url := "https://app.test/api/login?x=1", requestMethod := "POST", status := 200 }

/-- The intercept spec for a successful login. -/
def loginSpec : Intercept :=
  { url := "/api/login", method := "POST", statusCode := 200 }

/-- A world in which one login response arrives and clicks succeed. -/
def worldOk : World := { arrivals := [loginResp], clickOk := true }

/-- A coordinator instance over an arbitrary page handle. -/
def coord0 : Interception := { page := 0 }

/-! ### Claims -/

/-- Claim C1: for every call to `interceptions` with a non-empty list of specs
and a (truthy) trigger target, every response-observation await is
registered strictly before the trigger click is performed: in the
effect trace, every `register` event occurs at a strictly smaller
position than every `clickEv` event, so a response arriving immediately
after the action is observed by an already-armed await. -/
theorem interceptions_arms_before_trigger (c : Interception) (w : World)
    (specs : List Intercept) (sel : String) (b : Bool)
    (hne : specs ≠ []) (hsel : truthy (some sel) = true) :
    ∀ (i j : Nat) (s : Intercept),
      ((c.interceptionsRun w specs (some sel) b).2.1)[i]? = some (Event.register s) →
      ((c.interceptionsRun w specs (some sel) b).2.1)[j]? = some (Event.clickEv sel) →
      i < j := by
  have hsel' : (sel == "") = false := by
    cases h : sel == "" with
    | true => rw [truthy] at hsel; rw [h] at hsel; cases hsel
    | false => rfl
  rw [interceptionsRun_trace_click c w specs sel b hsel']
  intro i j s hi hj
  rw [List.getElem?_append] at hi hj
  have hilt : i < (specs.map Event.register).length := by
    by_contra hge
    rw [if_neg hge] at hi
    cases hd : i - (specs.map Event.register).length with
    | zero => rw [hd] at hi; cases hi
    | succ k => rw [hd] at hi; cases hi
  have hjge : (specs.map Event.register).length ≤ j := by
    by_contra hlt
    push_neg at hlt
    rw [if_pos hlt, List.getElem?_map] at hj
    cases hsj : specs[j]? with
    | none => rw [hsj] at hj; cases hj
    | some s2 => rw [hsj] at hj; cases hj
  exact Nat.lt_of_lt_of_le hilt hjge

/-- Witness for C1 at a concrete call. -/
theorem interceptions_arms_before_trigger_witness :
    ([loginSpec] ≠ []) ∧ truthy (some "#login-btn") = true ∧
    (∀ (i j : Nat) (s : Intercept),
      ((coord0.interceptionsRun worldOk [loginSpec] (some "#login-btn") true).2.1)[i]? =
        some (Event.register s) →
      ((coord0.interceptionsRun worldOk [loginSpec] (some "#login-btn") true).2.1)[j]? =
        some (Event.clickEv "#login-btn") →
      i < j) :=
  ⟨by decide, by decide,
    interceptions_arms_before_trigger coord0 worldOk [loginSpec] "#login-btn" true
      (by decide) (by decide)⟩

/-- Claim C2: the response-matching predicate returns true iff the response
URL contains the spec URL as a contiguous substring, the request method
equals the spec method, and the status code equals the spec status
code; if any one condition fails it returns false.  Being a plain Lean
function of its arguments, it is pure. -/
theorem respMatches_spec (r : Response) (s : Intercept) :
    respMatches r s = true ↔
      ((∃ p q, r.url.data = p ++ s.url.data ++ q) ∧
        r.requestMethod = s.method ∧ r.status = s.statusCode) := by
  unfold respMatches
  simp only [Bool.and_eq_true, beq_iff_eq, strIncludes_iff]
  tauto

/-- Witness for C2 at a concrete response/spec pair. -/
theorem respMatches_spec_witness :
    respMatches loginResp loginSpec = true ↔
      ((∃ p q, loginResp.url.data = p ++ loginSpec.url.data ++ q) ∧
        loginResp.requestMethod = loginSpec.method ∧
        loginResp.status = loginSpec.statusCode) :=
  respMatches_spec loginResp loginSpec

/-- Claim C3: when every registered observation resolves (and the trigger, if
truthy, succeeds), the call with `waitForResponses = true` returns the
resolved responses in the same order as the specs were given — the
`i`-th handle is the resolution of the await of the `i`-th spec — while
call with `waitForResponses = false` (the declared default) still
awaits the same observations and returns the coordinator itself. -/
theorem interceptions_return_modes (c : Interception) (w : World)
    (specs : List Intercept) (ca : Option String) (rs : List Response)
    (hclick : truthy ca = true → w.clickOk = true)
    (hall : promiseAll (specs.map fun s => waitForResponse w fun r => respMatches r s) =
      Except.ok rs) :
    (c.interceptionsRun w specs ca true).2.2 = Except.ok (IResult.responses rs) ∧
    (c.interceptionsRun w specs ca false).2.2 = Except.ok (IResult.selfRef c) ∧
    rs.length = specs.length ∧
    (∀ (i : Nat) (hi : i < specs.length) (hj : i < rs.length),
      waitForResponse w (fun r => respMatches r specs[i]) = some rs[i]) := by
  have hfin : ∀ b : Bool, finishInterceptions
      (specs.map fun s => waitForResponse w fun r => respMatches r s) b c =
      (if b then Except.ok (IResult.responses rs) else Except.ok (IResult.selfRef c)) := by
    intro b
    unfold finishInterceptions
    rw [hall]
  have hres : ∀ b : Bool, (c.interceptionsRun w specs ca b).2.2 =
      (if b then Except.ok (IResult.responses rs) else Except.ok (IResult.selfRef c)) := by
    intro b
    unfold Interception.interceptionsRun
    cases ca with
    | none => exact hfin b
    | some sel =>
      by_cases hsel : (sel == "") = true
      · simp only [hsel, if_true]
        exact hfin b
      · have hok : w.clickOk = true := by
          apply hclick
          rw [truthy]
          simp only [Bool.not_eq_true']
          exact eq_false_of_ne_true hsel
        simp only [eq_false_of_ne_true hsel, Bool.false_eq_true, if_false, hok, if_true]
        exact hfin b
  obtain ⟨hlen, hget⟩ := promiseAll_ok_get _ rs hall
  refine ⟨by simpa using hres true, by simpa using hres false, by simpa using hlen, ?_⟩
  intro i hi hj
  have hi' : i < (specs.map fun s => waitForResponse w fun r => respMatches r s).length := by
    simpa using hi
  have := hget i hi' hj
  simpa using this

/-- Witness for C3 at a concrete call. -/
theorem interceptions_return_modes_witness :
    (truthy (some "#login-btn") = true → worldOk.clickOk = true) ∧
    (promiseAll ([loginSpec].map fun s => waitForResponse worldOk fun r => respMatches r s) =
      Except.ok [loginResp]) ∧
    ((coord0.interceptionsRun worldOk [loginSpec] (some "#login-btn") true).2.2 =
        Except.ok (IResult.responses [loginResp]) ∧
      (coord0.interceptionsRun worldOk [loginSpec] (some "#login-btn") false).2.2 =
        Except.ok (IResult.selfRef coord0) ∧
      [loginResp].length = [loginSpec].length ∧
      (∀ (i : Nat) (hi : i < [loginSpec].length) (hj : i < [loginResp].length),
        waitForResponse worldOk (fun r => respMatches r [loginSpec][i]) =
          some [loginResp][i])) :=
  ⟨by decide, by rfl,
    interceptions_return_modes coord0 worldOk [loginSpec] (some "#login-btn") [loginResp]
      (by decide) (by rfl)⟩

/-- Claim C4: when the trigger target is absent (`clickAction` omitted), the
effect trace holds only `register` events (no page interaction), the
whole run is insensitive to whether a click would succeed, and the only
possible failure is a timed-out observation — never a trigger
failure. -/
theorem interceptions_without_trigger (c : Interception) (arr : List Response)
    (ok1 ok2 : Bool) (specs : List Intercept) (b : Bool) :
    (∀ ev ∈ (c.interceptionsRun ⟨arr, ok1⟩ specs none b).2.1, ∃ s, ev = Event.register s) ∧
    c.interceptionsRun ⟨arr, ok1⟩ specs none b = c.interceptionsRun ⟨arr, ok2⟩ specs none b ∧
    (∀ er, (c.interceptionsRun ⟨arr, ok1⟩ specs none b).2.2 = Except.error er →
      er = IErr.interceptionTimeout) := by
  refine ⟨?_, rfl, ?_⟩
  · intro ev hev
    have : ev ∈ specs.map Event.register := hev
    rw [List.mem_map] at this
    obtain ⟨s, _, hs⟩ := this
    exact ⟨s, hs.symm⟩
  · intro er her
    exact finishInterceptions_error_eq _ b c er her

/-- Witness for C4 at a concrete call. -/
theorem interceptions_without_trigger_witness :
    (∀ ev ∈ (coord0.interceptionsRun ⟨[loginResp], true⟩ [loginSpec] none false).2.1,
      ∃ s, ev = Event.register s) ∧
    coord0.interceptionsRun ⟨[loginResp], true⟩ [loginSpec] none false =
      coord0.interceptionsRun ⟨[loginResp], false⟩ [loginSpec] none false ∧
    (∀ er, (coord0.interceptionsRun ⟨[loginResp], true⟩ [loginSpec] none false).2.2 =
        Except.error er → er = IErr.interceptionTimeout) :=
  interceptions_without_trigger coord0 [loginResp] true false [loginSpec] false

/-- The result of `interceptions` when no trigger target is given. -/
theorem interceptionsRun_result_none (c : Interception) (w : World)
    (specs : List Intercept) (b : Bool) :
    (c.interceptionsRun w specs none b).2.2 =
      finishInterceptions (specs.map fun s => waitForResponse w fun r => respMatches r s)
        b c := rfl

/-- The result of `interceptions` when the trigger locator is truthy and
the click succeeds. -/
theorem interceptionsRun_result_click_ok (c : Interception) (w : World)
    (specs : List Intercept) (sel : String) (b : Bool)
    (hsel : (sel == "") = false) (hok : w.clickOk = true) :
    (c.interceptionsRun w specs (some sel) b).2.2 =
      finishInterceptions (specs.map fun s => waitForResponse w fun r => respMatches r s)
        b c := by
  unfold Interception.interceptionsRun
  simp [hsel, hok]

/-- The result of `interceptions` when the trigger locator is truthy and
the click fails. -/
theorem interceptionsRun_result_click_fail (c : Interception) (w : World)
    (specs : List Intercept) (sel : String) (b : Bool)
    (hsel : (sel == "") = false) (hok : w.clickOk = false) :
    (c.interceptionsRun w specs (some sel) b).2.2 = Except.error IErr.elementNotFound := by
  unfold Interception.interceptionsRun
  simp [hsel, hok]

/-- The result of `interceptions` when the trigger locator is the empty
(falsy) string: no click is attempted. -/
theorem interceptionsRun_result_falsy (c : Interception) (w : World)
    (specs : List Intercept) (sel : String) (b : Bool) (hsel : (sel == "") = true) :
    (c.interceptionsRun w specs (some sel) b).2.2 =
      finishInterceptions (specs.map fun s => waitForResponse w fun r => respMatches r s)
        b c := by
  unfold Interception.interceptionsRun
  simp [hsel]

/-- Claim C5: every `interceptions` call is all-or-nothing: it returns
normally iff the trigger (when truthy) succeeds and every registered
observation resolves; otherwise it fails as a whole, with the trigger
failure or a timed-out observation failing the entire call.  Each await
consults the arrival stream exactly once (`find?`), so no failed
observation is retried. -/
theorem interceptions_all_or_nothing (c : Interception) (w : World)
    (specs : List Intercept) (ca : Option String) (b : Bool) :
    ((∃ r, (c.interceptionsRun w specs ca b).2.2 = Except.ok r) ↔
      ((truthy ca = true → w.clickOk = true) ∧
        ∀ s ∈ specs, (waitForResponse w fun r => respMatches r s).isSome = true)) ∧
    (∀ er, (c.interceptionsRun w specs ca b).2.2 = Except.error er →
      er = IErr.elementNotFound ∨ er = IErr.interceptionTimeout) := by
  have hfiniff : (∃ r, finishInterceptions
      (specs.map fun s => waitForResponse w fun r => respMatches r s) b c = Except.ok r) ↔
      ∀ s ∈ specs, (waitForResponse w fun r => respMatches r s).isSome = true := by
    rw [finishInterceptions_ok_iff]
    constructor
    · intro hall s hs
      exact hall _ (List.mem_map_of_mem _ hs)
    · intro hall p hp
      rw [List.mem_map] at hp
      obtain ⟨s, hs, hps⟩ := hp
      rw [← hps]
      exact hall s hs
  cases ca with
  | none =>
    rw [interceptionsRun_result_none]
    refine ⟨?_, ?_⟩
    · constructor
      · intro hok
        refine ⟨fun htr => absurd htr (by decide), hfiniff.mp hok⟩
      · rintro ⟨_, hall⟩
        exact hfiniff.mpr hall
    · intro er her
      exact Or.inr (finishInterceptions_error_eq _ b c er her)
  | some sel =>
    by_cases hsel : (sel == "") = true
    · rw [interceptionsRun_result_falsy c w specs sel b hsel]
      have htr : truthy (some sel) = false := by
        rw [truthy, hsel]
        rfl
      refine ⟨?_, ?_⟩
      · constructor
        · intro hok
          refine ⟨fun h => absurd h (by rw [htr]; decide), hfiniff.mp hok⟩
        · rintro ⟨_, hall⟩
          exact hfiniff.mpr hall
      · intro er her
        exact Or.inr (finishInterceptions_error_eq _ b c er her)
    · have hsel' : (sel == "") = false := eq_false_of_ne_true hsel
      have htr : truthy (some sel) = true := by
        rw [truthy, hsel']
        rfl
      cases hok : w.clickOk with
      | true =>
        rw [interceptionsRun_result_click_ok c w specs sel b hsel' hok]
        refine ⟨?_, ?_⟩
        · constructor
          · intro hex
            exact ⟨fun _ => rfl, hfiniff.mp hex⟩
          · rintro ⟨_, hall⟩
            exact hfiniff.mpr hall
        · intro er her
          exact Or.inr (finishInterceptions_error_eq _ b c er her)
      | false =>
        rw [interceptionsRun_result_click_fail c w specs sel b hsel' hok]
        refine ⟨?_, ?_⟩
        · constructor
          · rintro ⟨r, hr⟩
            cases hr
          · rintro ⟨hcl, _⟩
            exact absurd (hcl htr) (by decide)
        · intro er her
          cases her
          exact Or.inl rfl

/-- Witness for C5 at a concrete call. -/
theorem interceptions_all_or_nothing_witness :
    ((∃ r, (coord0.interceptionsRun worldOk [loginSpec] (some "#login-btn") false).2.2 =
        Except.ok r) ↔
      ((truthy (some "#login-btn") = true → worldOk.clickOk = true) ∧
        ∀ s ∈ [loginSpec],
          (waitForResponse worldOk fun r => respMatches r s).isSome = true)) ∧
    (∀ er, (coord0.interceptionsRun worldOk [loginSpec] (some "#login-btn") false).2.2 =
        Except.error er → er = IErr.elementNotFound ∨ er = IErr.interceptionTimeout) :=
  interceptions_all_or_nothing coord0 worldOk [loginSpec] (some "#login-btn") false

/-- Claim C6: the coordinator is stateless across calls: an invocation leaves
the object (its only field, the page handle) unchanged, and a second
invocation performed after a first one behaves exactly as it would on
the fresh coordinator — its outcome is a function of the traffic of its
own call alone, with no history cached from the first call. -/
theorem interception_stateless (c : Interception) (w1 w2 : World)
    (specs : List Intercept) (ca : Option String) (b : Bool) :
    (c.interceptionsRun w1 specs ca b).1 = c ∧
    ((c.interceptionsRun w1 specs ca b).1).interceptionsRun w2 specs ca b =
      c.interceptionsRun w2 specs ca b := by
  refine ⟨interceptionsRun_state c w1 specs ca b, ?_⟩
  rw [interceptionsRun_state c w1 specs ca b]

/-- Witness for C6 at a concrete pair of calls. -/
theorem interception_stateless_witness :
    (coord0.interceptionsRun worldOk [loginSpec] (some "#login-btn") false).1 = coord0 ∧
    ((coord0.interceptionsRun worldOk [loginSpec] (some "#login-btn") false).1).interceptionsRun
        { arrivals := [], clickOk := true } [loginSpec] (some "#login-btn") false =
      coord0.interceptionsRun { arrivals := [], clickOk := true } [loginSpec]
        (some "#login-btn") false :=
  interception_stateless coord0 worldOk { arrivals := [], clickOk := true } [loginSpec]
    (some "#login-btn") false

/-- Claim C7: `Login.signIn` first fills the username and password fields,
then arms exactly one response await — for a response whose URL
contains `/api/login`, whose request method is `POST` and whose status
is the caller-specified code — at a strictly earlier position than the
click on the login control (the two are awaited together), and on
success returns the `Login` object itself. -/
theorem login_signIn_contract (l : Login) (w : World) (u p : String) (sc : Nat) :
    (l.signInRun w u p sc).1 =
      [LEvent.fill fieldSignInUsername u, LEvent.fill fieldSignInPassword p,
        LEvent.armAwait "/api/login" "POST" sc, LEvent.click loginButton] ∧
    (∀ x, (l.signInRun w u p sc).2 = Except.ok x → x = l) ∧
    ((∃ x, (l.signInRun w u p sc).2 = Except.ok x) ↔
      (w.clickOk = true ∧
        (waitForResponse w fun r =>
          strIncludes r.url "/api/login" && r.requestMethod == "POST" &&
            r.status == sc).isSome = true)) := by
  unfold Login.signInRun
  cases hok : w.clickOk with
  | false =>
    refine ⟨rfl, ?_, ?_⟩
    · intro x hx
      cases hx
    · constructor
      · rintro ⟨x, hx⟩
        cases hx
      · rintro ⟨hcl, _⟩
        cases hcl
  | true =>
    cases hresp : waitForResponse w fun r =>
        strIncludes r.url "/api/login" && r.requestMethod == "POST" && r.status == sc with
    | some r =>
      refine ⟨rfl, ?_, ?_⟩
      · intro x hx
        cases hx
        rfl
      · constructor
        · intro _
          exact ⟨rfl, rfl⟩
        · intro _
          exact ⟨l, rfl⟩
    | none =>
      refine ⟨rfl, ?_, ?_⟩
      · intro x hx
        cases hx
      · constructor
        · rintro ⟨x, hx⟩
          cases hx
        · rintro ⟨_, hsome⟩
          cases hsome

/-- Witness for C7 at a concrete call. -/
theorem login_signIn_contract_witness :
    (({ page := 0 } : Login).signInRun worldOk "user" "pass" 200).1 =
      [LEvent.fill fieldSignInUsername "user", LEvent.fill fieldSignInPassword "pass",
        LEvent.armAwait "/api/login" "POST" 200, LEvent.click loginButton] ∧
    (∀ x, (({ page := 0 } : Login).signInRun worldOk "user" "pass" 200).2 = Except.ok x →
      x = { page := 0 }) ∧
    ((∃ x, (({ page := 0 } : Login).signInRun worldOk "user" "pass" 200).2 = Except.ok x) ↔
      (worldOk.clickOk = true ∧
        (waitForResponse worldOk fun r =>
          strIncludes r.url "/api/login" && r.requestMethod == "POST" &&
            r.status == 200).isSome = true)) :=
  login_signIn_contract { page := 0 } worldOk "user" "pass" 200

/-- Claim C8: the centrally configured timeouts: the per-test `timeout`
expression `10 * 2000` evaluates exactly to 20000 ms (20 seconds) and
the per-assertion `expect.timeout` is 5000 ms (5 seconds), in both
config variants. -/
theorem config_timeouts :
    playwrightConfig.timeout = 10 * 2000 ∧ playwrightConfig.timeout = 20000 ∧
    playwrightConfig.timeout = 20 * 1000 ∧ playwrightConfig.expectTimeout = 5000 ∧
    playwrightConfig.expectTimeout = 5 * 1000 ∧ projectsConfig.timeout = 20000 ∧
    projectsConfig.expectTimeout = 5000 := by
  decide

/-- Claim C9: a call with an empty specs list and no trigger target performs
no registration and no click (empty effect trace) and resolves
successfully in every world — it cannot time out — returning the empty
response list when the flag is true and the coordinator itself
otherwise. -/
theorem interceptions_empty_batch (c : Interception) (w : World) (b : Bool) :
    c.interceptionsRun w [] none b =
      (c, [], if b then Except.ok (IResult.responses [])
        else Except.ok (IResult.selfRef c)) := by
  cases b with
  | true => rfl
  | false => rfl

/-- Witness for C9 at a concrete call. -/
theorem interceptions_empty_batch_witness :
    coord0.interceptionsRun worldOk [] none true =
      (coord0, [], if true then Except.ok (IResult.responses [])
        else Except.ok (IResult.selfRef coord0)) :=
  interceptions_empty_batch coord0 worldOk true

/-- An environment where `tracing.start` rejects (e.g. the browser
context cannot start tracing): the catch handler then calls
`tracing.stop` on a tracing session that was never started, which
itself rejects. -/
def tdCounterEnv : TDEnv :=
  { launchOk := true, newPageOk := true, traceStartOk := false, gotoOk := true,
    signInOk := true, navOk := true, nextMonthOk := true, waitTasksOk := true,
    deleteLoopOk := true, traceStopOk := true, errTraceStopOk := false, closeOk := true }

/-- Claim C10 counterexample: `globalTeardown` is not exception-free.  In
`tdCounterEnv` the try-body error (from `tracing.start`) is caught, but
the own `tracing.stop` call of the catch handler rejects and that exception
escapes the handler and propagates to the caller — even though the
browser is still closed by the `finally` block.  So the claim that
`globalTeardown` never propagates an exception is false. -/
theorem globalTeardown_propagates_cex :
    (globalTeardownRun tdCounterEnv).2 = some TDErr.errTraceStopE ∧
    TDEvent.closeBrowser ∈ (globalTeardownRun tdCounterEnv).1 := by
  decide

/-- Claim C10 (amended): provided the `tracing.stop` call of the catch
handler and the `browser.close()` of the finally block do not reject,
`globalTeardown` propagates no exception to its caller: every error
raised in its try body (launch, page creation, tracing, login,
navigation, task deletion) is caught and logged.  Moreover — in every
environment — whenever the browser was successfully launched,
`browser.close()` is invoked before the function returns, on the
success and the error path alike. -/
theorem globalTeardown_guarded (e : TDEnv)
    (hstop : e.errTraceStopOk = true) (hclose : e.closeOk = true) :
    (globalTeardownRun e).2 = none ∧
    (e.launchOk = true → TDEvent.closeBrowser ∈ (globalTeardownRun e).1) ∧
    (tryBody e ≠ none → TDEvent.logError ∈ (globalTeardownRun e).1) := by
  obtain ⟨l, np, ts, g, si, nv, nm, wt, dl, tp, ets, cl⟩ := e
  simp only at hstop hclose
  subst hstop
  subst hclose
  cases l <;> cases np <;> cases ts <;> cases g <;> cases si <;> cases nv <;>
    cases nm <;> cases wt <;> cases dl <;> cases tp <;> decide

/-- An environment where login rejects but the guarded operations
resolve: the error is caught and logged and the browser closed. -/
def tdLoginFailEnv : TDEnv :=
  { launchOk := true, newPageOk := true, traceStartOk := true, gotoOk := true,
    signInOk := false, navOk := true, nextMonthOk := true, waitTasksOk := true,
    deleteLoopOk := true, traceStopOk := true, errTraceStopOk := true, closeOk := true }

/-- Witness for the amended C10 at a concrete environment. -/
theorem globalTeardown_guarded_witness :
    tdLoginFailEnv.errTraceStopOk = true ∧ tdLoginFailEnv.closeOk = true ∧
    ((globalTeardownRun tdLoginFailEnv).2 = none ∧
      (tdLoginFailEnv.launchOk = true →
        TDEvent.closeBrowser ∈ (globalTeardownRun tdLoginFailEnv).1) ∧
      (tryBody tdLoginFailEnv ≠ none →
        TDEvent.logError ∈ (globalTeardownRun tdLoginFailEnv).1)) :=
  ⟨by decide, by decide, globalTeardown_guarded tdLoginFailEnv (by decide) (by decide)⟩
